import Mathlib

/-!
Shallow embedding of `Tools/cases_generator/parser.py`: the recursive-descent
parser for the instruction-definition DSL.  Each grammar method of the Python
`Parser` class becomes a pure function from the remaining token list to a
three-way result (match / no-match-with-cursor / fatal syntax error), the
`contextual` decorator becomes an explicit combinator, and the mutable cursor
becomes the explicitly threaded token list (the cursor position is identified
with the suffix of the token buffer that starts at it).  Source spans
(`Context` objects) only record token index ranges for later text reproduction
and carry no parsing behaviour, so they are omitted from the embedding.
-/

namespace CasesGenerator

/-- Token kinds used by `parser.py` (a subset of the external lexer's kinds;
`COMMENT` stands for the normally-skipped raw kinds such as comments and
whitespace). -/
inductive TokenKind where
  | IDENTIFIER
  | NUMBER
  | LPAREN
  | RPAREN
  | LBRACE
  | RBRACE
  | LBRACKET
  | RBRACKET
  | COMMA
  | DIVIDE
  | MINUSMINUS
  | EQUALS
  | SEMI
  | PLUS
  | COMMENT
  deriving DecidableEq, Repr

/-- A classified token: kind plus source text. -/
structure Token where
  kind : TokenKind
  text : String
  deriving DecidableEq, Repr

/-- Modelled from the spec: the external tokenizer classifies some tokens
(comments and the like) as raw tokens that the cursor primitives normally
skip; `next(raw=True)` alone yields them. -/
def isRawKind : TokenKind → Bool
  | TokenKind.COMMENT => true
  | _ => false

/-- Modelled from the spec: skip the normally-filtered raw tokens in front of
the cursor. -/
def skipWS : List Token → List Token
  | [] => []
  | t :: ts => if isRawKind t.kind then skipWS ts else t :: ts

/-- Modelled from the spec: peek at the next non-raw token without consuming
it (the external cursor's peek-without-consuming primitive). -/
def peek (ts : List Token) : Option Token := (skipWS ts).head?

/-- Modelled from the spec: consume the next token including raw tokens
(`next(raw=True)`); `none` at end of input. -/
def nextRaw : List Token → Option Token × List Token
  | [] => (none, [])
  | t :: ts => (some t, ts)

/-- Modelled from the spec: the external cursor's conditional token match.
If the next non-raw token has kind `k`, consume through it and return it;
otherwise leave the cursor where it was and return `none`. -/
def expect (k : TokenKind) (ts : List Token) : Option Token × List Token :=
  match skipWS ts with
  | t :: rest => if t.kind = k then (some t, rest) else (none, ts)
  | [] => (none, ts)

/-- Modelled from the spec: the raising variant of the token match used for
the mandatory `;` (`require`): a missing token is a fatal syntax error rather
than a no-match. -/
def require (k : TokenKind) (ts : List Token) :
    Except String (Token × List Token) :=
  match expect k ts with
  | (some t, ts1) => Except.ok (t, ts1)
  | (none, _) => Except.error "Expected token"

/-- Result of a grammar rule: a node plus the cursor after it, a no-match
carrying the cursor the rule body left behind, or a raised syntax error. -/
inductive PRes (α : Type) where
  | ok : α → List Token → PRes α
  | noMatch : List Token → PRes α
  | err : String → PRes α
  deriving DecidableEq, Repr

/-- The `contextual` decorator of `parser.py`: record the cursor before the
rule body runs; if the body yields no result, restore the cursor to the
recorded position and propagate no-match; successes and raised errors pass
through unchanged (span attachment omitted, see the module comment). -/
def contextual {α : Type} (body : List Token → PRes α) (ts : List Token) :
    PRes α :=
  match body ts with
  | PRes.noMatch _ => PRes.noMatch ts
  | r => r

/-- `Block` node: the opaque captured token run of an instruction body. -/
structure Block where
  tokens : List Token
  deriving DecidableEq, Repr

/-- `StackEffect` node: a named value flowing on or off the stack. -/
structure StackEffect where
  name : String
  deriving DecidableEq, Repr

/-- `CacheEffect` node: a named inline cache slot of fixed width. -/
structure CacheEffect where
  name : String
  size : Int
  deriving DecidableEq, Repr

/-- `OpName` node: a bare reference to a named micro-operation. -/
structure OpName where
  name : String
  deriving DecidableEq, Repr

/-- `InputEffect = StackEffect | CacheEffect` of `parser.py`. -/
inductive InputEffect where
  | stack : StackEffect → InputEffect
  | cache : CacheEffect → InputEffect
  deriving DecidableEq, Repr

/-- `UOp = OpName | CacheEffect` of `parser.py`. -/
inductive UOp where
  | opName : OpName → UOp
  | cache : CacheEffect → UOp
  deriving DecidableEq, Repr

/-- `InstHeader` node (transient): kind, name and the two effect lists. -/
structure InstHeader where
  kind : String
  name : String
  inputs : List InputEffect
  outputs : List StackEffect
  deriving DecidableEq, Repr

/-- `InstDef` node: a complete instruction or op definition. -/
structure InstDef where
  kind : String
  name : String
  inputs : List InputEffect
  outputs : List StackEffect
  block : Block
  deriving DecidableEq, Repr

/-- `Super` node: a composite instruction built from named ops. -/
structure Super where
  name : String
  ops : List OpName
  deriving DecidableEq, Repr

/-- `Macro` node: a named sequence of micro-ops and cache slots. -/
structure Macro where
  name : String
  uops : List UOp
  deriving DecidableEq, Repr

/-- `Family` node: a group of instruction variants sharing a cache. -/
structure Family where
  name : String
  size : String
  members : List String
  deriving DecidableEq, Repr

/-- The union of results of the top-level `definition` rule. -/
inductive Defn where
  | inst : InstDef → Defn
  | sup : Super → Defn
  | mac : Macro → Defn
  | fam : Family → Defn
  deriving DecidableEq, Repr

/-- Accumulate the value of a decimal digit run; `none` on the first
non-digit character. -/
def decDigitsAux : List Char → Nat → Option Nat
  | [], acc => some acc
  | c :: cs, acc =>
    if c.isDigit then decDigitsAux cs (acc * 10 + (c.toNat - 48)) else none

/-- Modelled from the spec: Python's `int()` over a number token's text
(an optionally signed decimal digit run); malformed text such as `1.5`
raises `ValueError`, modelled as `none`. -/
def parseInt (s : String) : Option Int :=
  match s.data with
  | [] => none
  | c :: cs =>
    if c = '-' then
      if cs.isEmpty then none
      else (decDigitsAux cs 0).map (fun n => -(n : Int))
    else
      if c = '+' then
        if cs.isEmpty then none
        else (decDigitsAux cs 0).map (fun n => (n : Int))
      else (decDigitsAux (c :: cs) 0).map (fun n => (n : Int))

/-- Body of `Parser.input`: `IDENTIFIER '/' INTEGER` (cache effect) or bare
`IDENTIFIER` (stack effect); a `/` with no well-formed integer after it is a
fatal error. -/
def input_body (ts : List Token) : PRes InputEffect :=
  match expect TokenKind.IDENTIFIER ts with
  | (some tkn, ts1) =>
    match expect TokenKind.DIVIDE ts1 with
    | (some _, ts2) =>
      match expect TokenKind.NUMBER ts2 with
      | (some num, ts3) =>
        match parseInt num.text with
        | some size => PRes.ok (InputEffect.cache ⟨tkn.text, size⟩) ts3
        | none => PRes.err ("Expected integer, got " ++ num.text)
      | (none, _) => PRes.err "Expected integer"
    | (none, ts2) => PRes.ok (InputEffect.stack ⟨tkn.text⟩) ts2
  | (none, ts1) => PRes.noMatch ts1

/-- `Parser.input` (contextual). -/
def input (ts : List Token) : PRes InputEffect := contextual input_body ts

/-- Body of `Parser.output`: a bare `IDENTIFIER` stack effect. -/
def output_body (ts : List Token) : PRes StackEffect :=
  match expect TokenKind.IDENTIFIER ts with
  | (some tkn, ts1) => PRes.ok ⟨tkn.text⟩ ts1
  | (none, ts1) => PRes.noMatch ts1

/-- `Parser.output` (contextual). -/
def output (ts : List Token) : PRes StackEffect := contextual output_body ts

/-- Recursion of `Parser.inputs`: `input (',' input)*` with rewind to just
after the last complete element when the tail fails.  The fuel argument only
bounds the recursion depth; every recursive call consumes at least two tokens,
so the fuel supplied by `inputs` is never exhausted. -/
def inputs_rec : Nat → List Token → PRes (List InputEffect)
  | 0, ts => PRes.noMatch ts
  | fuel + 1, ts =>
    match input ts with
    | PRes.ok inp ts1 =>
      match expect TokenKind.COMMA ts1 with
      | (some _, ts2) =>
        match inputs_rec fuel ts2 with
        | PRes.ok rest ts3 => PRes.ok (inp :: rest) ts3
        | PRes.noMatch _ => PRes.ok [inp] ts1
        | PRes.err e => PRes.err e
      | (none, _) => PRes.ok [inp] ts1
    | PRes.noMatch _ => PRes.noMatch ts
    | PRes.err e => PRes.err e

/-- `Parser.inputs`. -/
def inputs (ts : List Token) : PRes (List InputEffect) :=
  inputs_rec (ts.length + 1) ts

/-- Recursion of `Parser.outputs`: `output (',' output)*`, same shape as
`inputs_rec` restricted to plain names. -/
def outputs_rec : Nat → List Token → PRes (List StackEffect)
  | 0, ts => PRes.noMatch ts
  | fuel + 1, ts =>
    match output ts with
    | PRes.ok outp ts1 =>
      match expect TokenKind.COMMA ts1 with
      | (some _, ts2) =>
        match outputs_rec fuel ts2 with
        | PRes.ok rest ts3 => PRes.ok (outp :: rest) ts3
        | PRes.noMatch _ => PRes.ok [outp] ts1
        | PRes.err e => PRes.err e
      | (none, _) => PRes.ok [outp] ts1
    | PRes.noMatch _ => PRes.noMatch ts
    | PRes.err e => PRes.err e

/-- `Parser.outputs`. -/
def outputs (ts : List Token) : PRes (List StackEffect) :=
  outputs_rec (ts.length + 1) ts

/-- Tail of `Parser.stack_effect` from the closing paren on. -/
def stack_effect_close (inps : List InputEffect) (outs : List StackEffect)
    (ts : List Token) :
    Except String ((List InputEffect × List StackEffect) × List Token) :=
  match expect TokenKind.RPAREN ts with
  | (some _, ts1) => Except.ok ((inps, outs), ts1)
  | (none, _) => Except.error "Expected stack effect"

/-- Tail of `Parser.stack_effect` from the `--` separator on. -/
def stack_effect_tail (inps : List InputEffect) (ts : List Token) :
    Except String ((List InputEffect × List StackEffect) × List Token) :=
  match expect TokenKind.MINUSMINUS ts with
  | (some _, ts1) =>
    match outputs ts1 with
    | PRes.ok outs ts2 => stack_effect_close inps outs ts2
    | PRes.noMatch ts2 => stack_effect_close inps [] ts2
    | PRes.err e => Except.error e
  | (none, _) => Except.error "Expected stack effect"

/-- `Parser.stack_effect`: `'(' [inputs] '--' [outputs] ')'`; any structural
failure after entry is the fatal error `Expected stack effect` (the method
returns a pair or raises, it never no-matches). -/
def stack_effect (ts : List Token) :
    Except String ((List InputEffect × List StackEffect) × List Token) :=
  match expect TokenKind.LPAREN ts with
  | (some _, ts1) =>
    match inputs ts1 with
    | PRes.ok inps ts2 => stack_effect_tail inps ts2
    | PRes.noMatch ts2 => stack_effect_tail [] ts2
    | PRes.err e => Except.error e
  | (none, _) => Except.error "Expected stack effect"

/-- Body of `Parser.inst_header`: `inst(NAME)`, `inst(NAME, (i -- o))` or
`op(NAME, (i -- o))`; the stack-effect form peeks at, but does not consume,
the following `LBRACE`, and the legacy no-effect form is only accepted when
the kind is `inst`. -/
def inst_header_body (ts : List Token) : PRes InstHeader :=
  match expect TokenKind.IDENTIFIER ts with
  | (some tkn, ts1) =>
    if tkn.text = "inst" ∨ tkn.text = "op" then
      match expect TokenKind.LPAREN ts1 with
      | (some _, ts2) =>
        match expect TokenKind.IDENTIFIER ts2 with
        | (some nm, ts3) =>
          match expect TokenKind.COMMA ts3 with
          | (some _, ts4) =>
            match stack_effect ts4 with
            | Except.ok ((inp, outp), ts5) =>
              match expect TokenKind.RPAREN ts5 with
              | (some _, ts6) =>
                match peek ts6 with
                | some t =>
                  if t.kind = TokenKind.LBRACE then
                    PRes.ok ⟨tkn.text, nm.text, inp, outp⟩ ts6
                  else PRes.noMatch ts6
                | none => PRes.noMatch ts6
              | (none, ts6) => PRes.noMatch ts6
            | Except.error e => PRes.err e
          | (none, _) =>
            match expect TokenKind.RPAREN ts3 with
            | (some _, ts4) =>
              if tkn.text = "inst" then PRes.ok ⟨tkn.text, nm.text, [], []⟩ ts4
              else PRes.noMatch ts4
            | (none, ts4) => PRes.noMatch ts4
        | (none, ts3) => PRes.noMatch ts3
      | (none, ts2) => PRes.noMatch ts2
    else PRes.noMatch ts1
  | (none, ts1) => PRes.noMatch ts1

/-- `Parser.inst_header` (contextual). -/
def inst_header (ts : List Token) : PRes InstHeader :=
  contextual inst_header_body ts

/-- `isOpenKind`/`isCloseKind`: the two closed bracket families the blob
scanner adjusts its single joint counter on. -/
def isOpenKind : TokenKind → Bool
  | TokenKind.LBRACE => true
  | TokenKind.LPAREN => true
  | TokenKind.LBRACKET => true
  | _ => false

/-- The three closing bracket kinds. -/
def isCloseKind : TokenKind → Bool
  | TokenKind.RBRACE => true
  | TokenKind.RPAREN => true
  | TokenKind.RBRACKET => true
  | _ => false

/-- The loop of `Parser.c_blob`: consume raw tokens while adjusting the joint
nesting counter, break (without appending) on the closing token that takes the
counter to zero or below, and stop quietly at end of input. -/
def c_blob_loop : List Token → List Token → Int → List Token × List Token
  | [], acc, _ => (acc, [])
  | t :: rest, acc, level =>
    if isOpenKind t.kind then c_blob_loop rest (acc ++ [t]) (level + 1)
    else
      if isCloseKind t.kind then
        if level - 1 ≤ 0 then (acc, rest)
        else c_blob_loop rest (acc ++ [t]) (level - 1)
      else c_blob_loop rest (acc ++ [t]) level

/-- `Parser.c_blob`: capture the balanced token run (the opening token
included, the final closing token consumed but excluded) and the rest of the
buffer after it. -/
def c_blob (ts : List Token) : List Token × List Token := c_blob_loop ts [] 0

/-- Body of `Parser.block`: wrap the blob scan's capture in a `Block` node
(always succeeds). -/
def block_body (ts : List Token) : PRes Block :=
  PRes.ok ⟨(c_blob ts).1⟩ (c_blob ts).2

/-- `Parser.block` (contextual). -/
def block (ts : List Token) : PRes Block := contextual block_body ts

/-- Body of `Parser.inst_def`: a header followed by a block; a header with no
block behind it raises `Expected block`. -/
def inst_def_body (ts : List Token) : PRes InstDef :=
  match inst_header ts with
  | PRes.ok hdr ts1 =>
    match block ts1 with
    | PRes.ok blk ts2 =>
      PRes.ok ⟨hdr.kind, hdr.name, hdr.inputs, hdr.outputs, blk⟩ ts2
    | PRes.noMatch _ => PRes.err "Expected block"
    | PRes.err e => PRes.err e
  | PRes.noMatch ts1 => PRes.noMatch ts1
  | PRes.err e => PRes.err e

/-- `Parser.inst_def` (contextual). -/
def inst_def (ts : List Token) : PRes InstDef := contextual inst_def_body ts

/-- Body of `Parser.op`: a bare identifier op-name reference. -/
def op_body (ts : List Token) : PRes OpName :=
  match expect TokenKind.IDENTIFIER ts with
  | (some tkn, ts1) => PRes.ok ⟨tkn.text⟩ ts1
  | (none, ts1) => PRes.noMatch ts1

/-- `Parser.op` (contextual). -/
def op (ts : List Token) : PRes OpName := contextual op_body ts

/-- The `while self.expect(PLUS)` loop of `Parser.ops`: a `+` whose following
op fails to match is consumed and the loop simply continues (no error is
raised here).  Fuel bounds the iteration count; each iteration consumes the
`+`, so the fuel supplied by `ops` is never exhausted. -/
def ops_rec : Nat → List OpName → List Token →
    Except String (List OpName × List Token)
  | 0, acc, ts => Except.ok (acc, ts)
  | fuel + 1, acc, ts =>
    match expect TokenKind.PLUS ts with
    | (some _, ts1) =>
      match op ts1 with
      | PRes.ok o ts2 => ops_rec fuel (acc ++ [o]) ts2
      | PRes.noMatch ts2 => ops_rec fuel acc ts2
      | PRes.err e => Except.error e
    | (none, _) => Except.ok (acc, ts)

/-- `Parser.ops`: a non-empty `+`-separated op list, or no-match when the
first op is absent. -/
def ops (ts : List Token) : PRes (List OpName) :=
  match op ts with
  | PRes.ok o ts1 =>
    match ops_rec (ts1.length + 1) [o] ts1 with
    | Except.ok (l, ts2) => PRes.ok l ts2
    | Except.error e => PRes.err e
  | PRes.noMatch ts1 => PRes.noMatch ts1
  | PRes.err e => PRes.err e

/-- Body of `Parser.super_def`: `super ( NAME ) = ops ;` with a required
`;` (raised, not no-matched, when missing). -/
def super_def_body (ts : List Token) : PRes Super :=
  match expect TokenKind.IDENTIFIER ts with
  | (some tkn, ts1) =>
    if tkn.text = "super" then
      match expect TokenKind.LPAREN ts1 with
      | (some _, ts2) =>
        match expect TokenKind.IDENTIFIER ts2 with
        | (some nm, ts3) =>
          match expect TokenKind.RPAREN ts3 with
          | (some _, ts4) =>
            match expect TokenKind.EQUALS ts4 with
            | (some _, ts5) =>
              match ops ts5 with
              | PRes.ok l ts6 =>
                if l.isEmpty then PRes.noMatch ts6
                else
                  match require TokenKind.SEMI ts6 with
                  | Except.ok (_, ts7) => PRes.ok ⟨nm.text, l⟩ ts7
                  | Except.error e => PRes.err e
              | PRes.noMatch ts6 => PRes.noMatch ts6
              | PRes.err e => PRes.err e
            | (none, ts5) => PRes.noMatch ts5
          | (none, ts4) => PRes.noMatch ts4
        | (none, ts3) => PRes.noMatch ts3
      | (none, ts2) => PRes.noMatch ts2
    else PRes.noMatch ts1
  | (none, ts1) => PRes.noMatch ts1

/-- `Parser.super_def` (contextual). -/
def super_def (ts : List Token) : PRes Super := contextual super_def_body ts

/-- Body of `Parser.uop`: op name or `NAME / INTEGER` cache-slot reference;
`/` with no well-formed integer is a fatal error. -/
def uop_body (ts : List Token) : PRes UOp :=
  match expect TokenKind.IDENTIFIER ts with
  | (some tkn, ts1) =>
    match expect TokenKind.DIVIDE ts1 with
    | (some _, ts2) =>
      match expect TokenKind.NUMBER ts2 with
      | (some num, ts3) =>
        match parseInt num.text with
        | some size => PRes.ok (UOp.cache ⟨tkn.text, size⟩) ts3
        | none => PRes.err ("Expected integer, got " ++ num.text)
      | (none, _) => PRes.err "Expected integer"
    | (none, ts2) => PRes.ok (UOp.opName ⟨tkn.text⟩) ts2
  | (none, ts1) => PRes.noMatch ts1

/-- `Parser.uop` (contextual). -/
def uop (ts : List Token) : PRes UOp := contextual uop_body ts

/-- The `while self.expect(PLUS)` loop of `Parser.uops`: unlike `ops_rec`, a
`+` whose following uop fails to match raises a fatal error. -/
def uops_rec : Nat → List UOp → List Token →
    Except String (List UOp × List Token)
  | 0, acc, ts => Except.ok (acc, ts)
  | fuel + 1, acc, ts =>
    match expect TokenKind.PLUS ts with
    | (some _, ts1) =>
      match uop ts1 with
      | PRes.ok u ts2 => uops_rec fuel (acc ++ [u]) ts2
      | PRes.noMatch _ => Except.error "Expected op name or cache effect"
      | PRes.err e => Except.error e
    | (none, _) => Except.ok (acc, ts)

/-- `Parser.uops`. -/
def uops (ts : List Token) : PRes (List UOp) :=
  match uop ts with
  | PRes.ok u ts1 =>
    match uops_rec (ts1.length + 1) [u] ts1 with
    | Except.ok (l, ts2) => PRes.ok l ts2
    | Except.error e => PRes.err e
  | PRes.noMatch ts1 => PRes.noMatch ts1
  | PRes.err e => PRes.err e

/-- Body of `Parser.macro_def`: same shape as `super_def` over uops. -/
def macro_def_body (ts : List Token) : PRes Macro :=
  match expect TokenKind.IDENTIFIER ts with
  | (some tkn, ts1) =>
    if tkn.text = "macro" then
      match expect TokenKind.LPAREN ts1 with
      | (some _, ts2) =>
        match expect TokenKind.IDENTIFIER ts2 with
        | (some nm, ts3) =>
          match expect TokenKind.RPAREN ts3 with
          | (some _, ts4) =>
            match expect TokenKind.EQUALS ts4 with
            | (some _, ts5) =>
              match uops ts5 with
              | PRes.ok l ts6 =>
                if l.isEmpty then PRes.noMatch ts6
                else
                  match require TokenKind.SEMI ts6 with
                  | Except.ok (_, ts7) => PRes.ok ⟨nm.text, l⟩ ts7
                  | Except.error e => PRes.err e
              | PRes.noMatch ts6 => PRes.noMatch ts6
              | PRes.err e => PRes.err e
            | (none, ts5) => PRes.noMatch ts5
          | (none, ts4) => PRes.noMatch ts4
        | (none, ts3) => PRes.noMatch ts3
      | (none, ts2) => PRes.noMatch ts2
    else PRes.noMatch ts1
  | (none, ts1) => PRes.noMatch ts1

/-- `Parser.macro_def` (contextual). -/
def macro_def (ts : List Token) : PRes Macro := contextual macro_def_body ts

/-- The `while self.expect(COMMA)` loop of `Parser.members`: a comma followed
by a non-identifier consumes the comma and breaks quietly. -/
def members_rec : Nat → List String → List Token → List String × List Token
  | 0, acc, ts => (acc, ts)
  | fuel + 1, acc, ts =>
    match expect TokenKind.COMMA ts with
    | (some _, ts1) =>
      match expect TokenKind.IDENTIFIER ts1 with
      | (some t, ts2) => members_rec fuel (acc ++ [t.text]) ts2
      | (none, ts2) => (acc, ts2)
    | (none, _) => (acc, ts)

/-- `Parser.members`: a non-empty comma-separated identifier list; after the
list, the next token must be a closing brace (peeked, not consumed) or the
rule raises. -/
def members (ts : List Token) : PRes (List String) :=
  match expect TokenKind.IDENTIFIER ts with
  | (some tkn, ts1) =>
    match members_rec (ts1.length + 1) [tkn.text] ts1 with
    | (ms, ts2) =>
      match peek ts2 with
      | some p =>
        if p.kind = TokenKind.RBRACE then PRes.ok ms ts2
        else PRes.err "Expected comma or right paren"
      | none => PRes.err "Expected comma or right paren"
  | (none, _) => PRes.noMatch ts

/-- Tail of `Parser.family_def` after the optional size variable. -/
def family_def_tail (nm : Token) (size : Option Token) (ts : List Token) :
    PRes Family :=
  match expect TokenKind.RPAREN ts with
  | (some _, ts1) =>
    match expect TokenKind.EQUALS ts1 with
    | (some _, ts2) =>
      match expect TokenKind.LBRACE ts2 with
      | (some _, ts3) =>
        match members ts3 with
        | PRes.ok ms ts4 =>
          if ms.isEmpty then PRes.noMatch ts4
          else
            match expect TokenKind.RBRACE ts4 with
            | (some _, ts5) =>
              match expect TokenKind.SEMI ts5 with
              | (some _, ts6) =>
                PRes.ok
                  ⟨nm.text, (match size with | some s => s.text | none => ""),
                    ms⟩ ts6
              | (none, ts6) => PRes.noMatch ts6
            | (none, ts5) => PRes.noMatch ts5
        | PRes.noMatch ts4 => PRes.noMatch ts4
        | PRes.err e => PRes.err e
      | (none, _) => PRes.err "Expected \x7b"
    | (none, ts2) => PRes.noMatch ts2
  | (none, ts1) => PRes.noMatch ts1

/-- Body of `Parser.family_def`: `family ( NAME [, SIZE] ) = ... ;`; a comma
with no identifier after it raises `Expected identifier`. -/
def family_def_body (ts : List Token) : PRes Family :=
  match expect TokenKind.IDENTIFIER ts with
  | (some tkn, ts1) =>
    if tkn.text = "family" then
      match expect TokenKind.LPAREN ts1 with
      | (some _, ts2) =>
        match expect TokenKind.IDENTIFIER ts2 with
        | (some nm, ts3) =>
          match expect TokenKind.COMMA ts3 with
          | (some _, ts4) =>
            match expect TokenKind.IDENTIFIER ts4 with
            | (some sz, ts5) => family_def_tail nm (some sz) ts5
            | (none, _) => PRes.err "Expected identifier"
          | (none, ts4) => family_def_tail nm none ts4
        | (none, ts3) => PRes.noMatch ts3
      | (none, ts2) => PRes.noMatch ts2
    else PRes.noMatch ts1
  | (none, ts1) => PRes.noMatch ts1

/-- `Parser.family_def` (contextual). -/
def family_def (ts : List Token) : PRes Family := contextual family_def_body ts

/-- Body of `Parser.definition`: ordered alternation over the four top-level
constructs. -/
def definition_body (ts : List Token) : PRes Defn :=
  match inst_def ts with
  | PRes.ok v ts1 => PRes.ok (Defn.inst v) ts1
  | PRes.err e => PRes.err e
  | PRes.noMatch ts1 =>
    match super_def ts1 with
    | PRes.ok v ts2 => PRes.ok (Defn.sup v) ts2
    | PRes.err e => PRes.err e
    | PRes.noMatch ts2 =>
      match macro_def ts2 with
      | PRes.ok v ts3 => PRes.ok (Defn.mac v) ts3
      | PRes.err e => PRes.err e
      | PRes.noMatch ts3 =>
        match family_def ts3 with
        | PRes.ok v ts4 => PRes.ok (Defn.fam v) ts4
        | PRes.err e => PRes.err e
        | PRes.noMatch ts4 => PRes.noMatch ts4

/-- `Parser.definition` (contextual). -/
def definition (ts : List Token) : PRes Defn := contextual definition_body ts

/-- The counter adjustment a token kind applies to the blob scanner's joint
nesting counter. -/
def blobDelta (k : TokenKind) : Int :=
  if isOpenKind k then 1 else if isCloseKind k then -1 else 0

/-- The net counter movement over a token run. -/
def blobLevel (ts : List Token) : Int :=
  (ts.map (fun t => blobDelta t.kind)).sum

/-- An identifier token. -/
def idT (s : String) : Token := ⟨TokenKind.IDENTIFIER, s⟩

/-- A number token. -/
def numT (s : String) : Token := ⟨TokenKind.NUMBER, s⟩

/-- A comment token (raw, normally skipped by the cursor). -/
def cmtT (s : String) : Token := ⟨TokenKind.COMMENT, s⟩

/-- The token `(`. -/
def lpT : Token := ⟨TokenKind.LPAREN, "("⟩

/-- The token `)`. -/
def rpT : Token := ⟨TokenKind.RPAREN, ")"⟩

/-- The token `\x7b`. -/
def lbT : Token := ⟨TokenKind.LBRACE, "\x7b"⟩

/-- The token `\x7d`. -/
def rbT : Token := ⟨TokenKind.RBRACE, "\x7d"⟩

/-- The token `,`. -/
def commaT : Token := ⟨TokenKind.COMMA, ","⟩

/-- The token `/`. -/
def divT : Token := ⟨TokenKind.DIVIDE, "/"⟩

/-- The token `--`. -/
def mmT : Token := ⟨TokenKind.MINUSMINUS, "--"⟩

/-- The token `=`. -/
def eqT : Token := ⟨TokenKind.EQUALS, "="⟩

/-- The token `;`. -/
def semiT : Token := ⟨TokenKind.SEMI, ";"⟩

/-- The token `+`. -/
def plusT : Token := ⟨TokenKind.PLUS, "+"⟩

/-- Token form of `inst(X) \x7b a (` : an instruction with an unterminated
body block (end of input is reached at nesting level 2). -/
def c1_input : List Token :=
  [idT "inst", lpT, idT "X", rpT, lbT, idT "a", lpT]

/-- Token form of `super(S) = ;` : a super definition with an empty op
list. -/
def c2_input : List Token :=
  [idT "super", lpT, idT "S", rpT, eqT, semiT]

/-- Token form of `super(S) = a + ;` : a super definition with a dangling
`+`. -/
def c3_input : List Token :=
  [idT "super", lpT, idT "S", rpT, eqT, idT "a", plusT, semiT]

/-- Token form of `inst(X, (a -- b)) ;` : a stack-effect header not followed
by an opening brace. -/
def c4_input : List Token :=
  [idT "inst", lpT, idT "X", commaT, lpT, idT "a", mmT, idT "b", rpT, rpT,
    semiT]

/-- The token prefix `super ( NAME ) =` of a super definition. -/
def superPrefixToks (s : String) : List Token :=
  [idT "super", lpT, idT s, rpT, eqT]

/-- The token form of a stack-effect instruction header
`inst ( NAME , ( a -- b ) )` (without the following body). -/
def instHeaderToks (nm a b : String) : List Token :=
  [idT "inst", lpT, idT nm, commaT, lpT, idT a, mmT, idT b, rpT, rpT]

/-- Token form of `inst(NAME, (a, b -- c)) \x7b \x7d`. -/
def instDefToks (nm a b c : String) : List Token :=
  [idT "inst", lpT, idT nm, commaT, lpT, idT a, commaT, idT b, mmT, idT c,
    rpT, rpT, lbT, rbT]

/-- Token form of `inst(NAME, (a/4 -- b)) \x7b \x7d`. -/
def instCacheToks (nm a b : String) : List Token :=
  [idT "inst", lpT, idT nm, commaT, lpT, idT a, divT, numT "4", mmT, idT b,
    rpT, rpT, lbT, rbT]

/-- A balanced blob buffer `\x7b a ( <comment> ) \x7d ;` whose first counter
zeroing closes at index 5 (a raw comment token sits inside). -/
def c6_input : List Token :=
  [lbT, idT "a", lpT, cmtT "// c", rpT, rbT, semiT]

/-- Token form of the member-list interior of `\x7ba, b +\x7d` (after the
opening brace has been consumed). -/
def c9_err_input : List Token :=
  [idT "a", commaT, idT "b", plusT, rbT]

/-- Token form of `inst(X) \x7b \x7d` : a legacy header followed by an empty
block. -/
def c10_input : List Token :=
  [idT "inst", lpT, idT "X", rpT, lbT, rbT]

/-- The wrapper restores the recorded cursor on no-match: whatever cursor the
body leaves behind, a wrapped rule that no-matches hands back the cursor it
was invoked at. -/
theorem contextual_noMatch {α : Type} (body : List Token → PRes α)
    (ts ts1 : List Token) (h : contextual body ts = PRes.noMatch ts1) :
    ts1 = ts := by
  unfold contextual at h
  cases hb : body ts <;> rw [hb] at h <;> simp_all

/-- A failing `expect` leaves the cursor unchanged. -/
theorem expect_none_eq (k : TokenKind) (ts ts1 : List Token)
    (h : expect k ts = (none, ts1)) : ts1 = ts := by
  unfold expect at h
  cases hw : skipWS ts with
  | nil => rw [hw] at h; simp_all
  | cons t rest =>
    rw [hw] at h
    by_cases hk : t.kind = k
    · simp [hk] at h
    · simp [hk] at h; exact h.symm

/-- When nothing peekable at the cursor has kind `k`, `expect k` fails and
leaves the cursor unchanged. -/
theorem expect_of_peek_ne (k : TokenKind) (ts : List Token)
    (h : ∀ t, peek ts = some t → t.kind ≠ k) : expect k ts = (none, ts) := by
  unfold expect
  cases hw : skipWS ts with
  | nil => rfl
  | cons t rest =>
    have ht : peek ts = some t := by unfold peek; rw [hw]; rfl
    simp [h t ht]

/-- `inputs_rec` no-matches only with the cursor it started at. -/
theorem inputs_rec_noMatch (n : Nat) (ts ts1 : List Token)
    (h : inputs_rec n ts = PRes.noMatch ts1) : ts1 = ts := by
  cases n with
  | zero => unfold inputs_rec at h; simp_all
  | succ n =>
    unfold inputs_rec at h
    split at h
    · split at h
      · split at h <;> simp_all
      · simp_all
    · simp at h; exact h.symm
    · simp at h

/-- `outputs_rec` no-matches only with the cursor it started at. -/
theorem outputs_rec_noMatch (n : Nat) (ts ts1 : List Token)
    (h : outputs_rec n ts = PRes.noMatch ts1) : ts1 = ts := by
  cases n with
  | zero => unfold outputs_rec at h; simp_all
  | succ n =>
    unfold outputs_rec at h
    split at h
    · split at h
      · split at h <;> simp_all
      · simp_all
    · simp at h; exact h.symm
    · simp at h

/-- `ops` no-matches only when its very first `op` does, with the cursor that
`op` restored. -/
theorem ops_noMatch (ts ts1 : List Token)
    (h : ops ts = PRes.noMatch ts1) : ts1 = ts := by
  unfold ops at h
  split at h
  · split at h <;> simp at h
  · rename_i ts2 hop
    simp at h
    rw [h] at hop
    exact contextual_noMatch op_body ts ts1 hop
  · simp at h

/-- `uops` no-matches only when its very first `uop` does, with the cursor
that `uop` restored. -/
theorem uops_noMatch (ts ts1 : List Token)
    (h : uops ts = PRes.noMatch ts1) : ts1 = ts := by
  unfold uops at h
  split at h
  · split at h <;> simp at h
  · rename_i ts2 huop
    simp at h
    rw [h] at huop
    exact contextual_noMatch uop_body ts ts1 huop
  · simp at h

/-- `members` no-matches only with the cursor it started at. -/
theorem members_noMatch (ts ts1 : List Token)
    (h : members ts = PRes.noMatch ts1) : ts1 = ts := by
  unfold members at h
  cases he : expect TokenKind.IDENTIFIER ts with
  | mk o tsr =>
    rw [he] at h
    cases o with
    | none => simp at h; exact h.symm
    | some t =>
      simp only [] at h
      cases hm : members_rec (tsr.length + 1) [t.text] tsr with
      | mk ms ts2 =>
        rw [hm] at h
        cases hp : peek ts2 with
        | none => rw [hp] at h; simp at h
        | some p =>
          rw [hp] at h
          by_cases hk : p.kind = TokenKind.RBRACE <;> simp [hk] at h

/-- Claim C1, counterexample: on the unterminated-block input
`inst(X) \x7b a (` (end of input while the joint counter is still 2) the
parser returns an ordinary `InstDef` node whose block holds the tokens
collected up to end of input — it does not raise a fatal syntax error. -/
theorem c1_counterexample :
    inst_def c1_input =
      PRes.ok ⟨"inst", "X", [], [], ⟨[lbT, idT "a", lpT]⟩⟩ [] := by
  rfl

/-- Claim C1 (amended): when no token of the buffer ever brings the blob
scanner's joint counter to zero or below, the scan stops quietly at end of
input, consuming the whole buffer and capturing every token of it; no error
is raised. -/
theorem c1_unterminated_block_captures_rest (ts : List Token)
    (h : ∀ i (hi : i < ts.length),
      isCloseKind (ts.get ⟨i, hi⟩).kind = true → 1 < blobLevel (ts.take i)) :
    c_blob ts = (ts, []) := by
  unfold c_blob
  have main : ∀ (us : List Token) (acc : List Token) (lvl : Int),
      (∀ i (hi : i < us.length),
        isCloseKind (us.get ⟨i, hi⟩).kind = true →
          1 < lvl + blobLevel (us.take i)) →
      c_blob_loop us acc lvl = (acc ++ us, []) := by
    intro us
    induction us with
    | nil => intro acc lvl _; simp [c_blob_loop]
    | cons t rest ih =>
      intro acc lvl hall
      by_cases hop : isOpenKind t.kind = true
      · have hd : blobDelta t.kind = 1 := by unfold blobDelta; simp [hop]
        simp only [c_blob_loop, hop, if_true]
        rw [ih (acc ++ [t]) (lvl + 1) ?_]
        · simp
        · intro i hi hic
          have := hall (i + 1) (by simpa using Nat.succ_lt_succ hi)
            (by simpa using hic)
          simp only [List.take_succ_cons, blobLevel, List.map_cons,
            List.sum_cons, hd] at this
          unfold blobLevel
          omega
      · by_cases hcl : isCloseKind t.kind = true
        · have h0 := hall 0 (by simp) (by simpa using hcl)
          simp only [List.take_zero, blobLevel, List.map_nil,
            List.sum_nil] at h0
          have hd : blobDelta t.kind = -1 := by
            unfold blobDelta; simp [hop, hcl]
          have hlvl : ¬(lvl - 1 ≤ 0) := by omega
          simp only [c_blob_loop, hop, if_false, hcl, if_true, hlvl]
          rw [ih (acc ++ [t]) (lvl - 1) ?_]
          · simp
          · intro i hi hic
            have := hall (i + 1) (by simpa using Nat.succ_lt_succ hi)
              (by simpa using hic)
            simp only [List.take_succ_cons, blobLevel, List.map_cons,
              List.sum_cons, hd] at this
            unfold blobLevel
            omega
        · have hd : blobDelta t.kind = 0 := by
            unfold blobDelta; simp [hop, hcl]
          simp only [c_blob_loop, hop, if_false, hcl]
          rw [ih (acc ++ [t]) lvl ?_]
          · simp
          · intro i hi hic
            have := hall (i + 1) (by simpa using Nat.succ_lt_succ hi)
              (by simpa using hic)
            simp only [List.take_succ_cons, blobLevel, List.map_cons,
              List.sum_cons, hd] at this
            unfold blobLevel
            omega
  rw [main ts [] 0 ?_]
  · simp
  · intro i hi hic
    have := h i hi hic
    omega

/-- Claim C2, counterexample: on `super(S) = ;` (no op name before the `;`)
`super_def` reports a no-match with the cursor rewound to the start, not a
fatal syntax error. -/
theorem c2_counterexample : super_def c2_input = PRes.noMatch c2_input := by
  rfl

/-- Claim C2 (amended): after `super ( NAME ) =` has been consumed, when the
next peekable token is not an identifier (so no op matches), `super_def`
returns a no-match with the cursor rewound to before `super`, rather than
raising a fatal error. -/
theorem c2_empty_ops_noMatch (s : String) (ts : List Token)
    (h : ∀ t, peek ts = some t → t.kind ≠ TokenKind.IDENTIFIER) :
    super_def (superPrefixToks s ++ ts) =
      PRes.noMatch (superPrefixToks s ++ ts) := by
  have hexp : expect TokenKind.IDENTIFIER ts = (none, ts) :=
    expect_of_peek_ne TokenKind.IDENTIFIER ts h
  have hops : ops ts = PRes.noMatch ts := by
    unfold ops op contextual op_body
    rw [hexp]
  show contextual super_def_body (superPrefixToks s ++ ts) = _
  unfold contextual
  have hbody : super_def_body (superPrefixToks s ++ ts) = PRes.noMatch ts := by
    show (match ops ts with
      | PRes.ok l ts6 =>
        if l.isEmpty then PRes.noMatch ts6
        else
          match require TokenKind.SEMI ts6 with
          | Except.ok (_, ts7) => PRes.ok (Super.mk s l) ts7
          | Except.error e => PRes.err e
      | PRes.noMatch ts6 => PRes.noMatch ts6
      | PRes.err e => PRes.err e) = PRes.noMatch ts
    rw [hops]
  rw [hbody]

/-- Claim C3, counterexample: on `super(S) = a + ;` (a `+` followed by no op
name) `super_def` succeeds with `Super("S", [OpName("a")])` — the dangling
`+` is silently consumed, no fatal syntax error is raised. -/
theorem c3_counterexample :
    super_def c3_input = PRes.ok ⟨"S", [⟨"a"⟩]⟩ [] := by
  rfl

/-- Claim C3 (amended): in macro uop lists a `+` whose follower fails to
match a uop raises the fatal error `Expected op name or cache effect`,
whereas in super op lists such a `+` is consumed and the loop simply
continues (the dangling `+` is tolerated). -/
theorem c3_dangling_plus :
    (∀ (fuel : Nat) (acc : List UOp) (ts ts1 ts2 : List Token) (t : Token),
      expect TokenKind.PLUS ts = (some t, ts1) →
      uop ts1 = PRes.noMatch ts2 →
      uops_rec (fuel + 1) acc ts =
        Except.error "Expected op name or cache effect") ∧
    (∀ (fuel : Nat) (acc : List OpName) (ts ts1 ts2 : List Token) (t : Token),
      expect TokenKind.PLUS ts = (some t, ts1) →
      op ts1 = PRes.noMatch ts2 →
      ops_rec (fuel + 1) acc ts = ops_rec fuel acc ts2) := by
  constructor
  · intro fuel acc ts ts1 ts2 t h1 h2
    unfold uops_rec
    rw [h1]
    simp only []
    rw [h2]
  · intro fuel acc ts ts1 ts2 t h1 h2
    conv_lhs => unfold ops_rec
    rw [h1]
    simp only []
    rw [h2]

/-- Claim C4, counterexample: on `inst(X, (a -- b)) ;` (a complete
stack-effect header with no `\x7b` after it) both `inst_def` and the
top-level `definition` report a no-match with the cursor rewound — no fatal
syntax error is raised. -/
theorem c4_counterexample :
    inst_def c4_input = PRes.noMatch c4_input ∧
      definition c4_input = PRes.noMatch c4_input := by
  exact ⟨rfl, rfl⟩

/-- Claim C4 (amended): when a stack-effect instruction header is complete
but the next peekable token is not `\x7b`, `inst_header` itself returns a
no-match with the cursor rewound to the start (the whole definition becomes
a no-match alternative); no syntax error is raised. -/
theorem c4_missing_block_noMatch (nm a b : String) (ts : List Token)
    (h : ∀ t, peek ts = some t → t.kind ≠ TokenKind.LBRACE) :
    inst_header (instHeaderToks nm a b ++ ts) =
      PRes.noMatch (instHeaderToks nm a b ++ ts) := by
  show contextual inst_header_body (instHeaderToks nm a b ++ ts) = _
  unfold contextual
  have hbody : inst_header_body (instHeaderToks nm a b ++ ts) =
      PRes.noMatch ts := by
    show (match peek ts with
      | some t =>
        if t.kind = TokenKind.LBRACE then
          PRes.ok
            (InstHeader.mk "inst" nm [InputEffect.stack (StackEffect.mk a)]
              [StackEffect.mk b]) ts
        else PRes.noMatch ts
      | none => PRes.noMatch ts) = PRes.noMatch ts
    cases hp : peek ts with
    | none => rfl
    | some t => simp [h t hp]
  rw [hbody]

/-- Claim C7: for every stack-effect instruction `inst(NAME, (a, b -- c))`
followed by an empty body block, `definition` yields an `InstDef` with
inputs `[StackEffect a, StackEffect b]` and outputs `[StackEffect c]`; and
with input element `a/4` it yields inputs `[CacheEffect a 4]`. -/
theorem c7_stack_and_cache_effects (nm a b c : String) :
    definition (instDefToks nm a b c) =
      PRes.ok (Defn.inst ⟨"inst", nm,
        [InputEffect.stack ⟨a⟩, InputEffect.stack ⟨b⟩], [⟨c⟩], ⟨[lbT]⟩⟩) [] ∧
    definition (instCacheToks nm a b) =
      PRes.ok (Defn.inst ⟨"inst", nm,
        [InputEffect.cache ⟨a, 4⟩], [⟨b⟩], ⟨[lbT]⟩⟩) [] := by
  exact ⟨rfl, rfl⟩

/-- Claim C8: the legacy no-effect header `KIND ( NAME )` succeeds exactly
for `inst` (returning empty effect lists, whatever follows), while for `op`
the header rule rewinds and reports a no-match. -/
theorem c8_legacy_header_inst_only (nm : String) (ts : List Token) :
    inst_header ([idT "inst", lpT, idT nm, rpT] ++ ts) =
      PRes.ok ⟨"inst", nm, [], []⟩ ts ∧
    inst_header ([idT "op", lpT, idT nm, rpT] ++ ts) =
      PRes.noMatch ([idT "op", lpT, idT nm, rpT] ++ ts) := by
  exact ⟨rfl, rfl⟩

/-- A closing bracket kind is not an opening one. -/
theorem isClose_not_isOpen (k : TokenKind) (h : isCloseKind k = true) :
    isOpenKind k = false := by
  cases k <;> simp_all [isOpenKind, isCloseKind]

/-- The blob loop stops exactly at the first closing token that takes the
joint counter to or below zero: it returns the accumulated tokens followed
by all tokens before that closing token, and leaves the cursor just past
it. -/
theorem c_blob_loop_capture (us : List Token) :
    ∀ (acc : List Token) (lvl : Int) (j : Nat) (hj : j < us.length),
      isCloseKind (us.get ⟨j, hj⟩).kind = true →
      lvl + blobLevel (us.take j) ≤ 1 →
      (∀ i (hi : i < us.length), i < j →
        ¬(isCloseKind (us.get ⟨i, hi⟩).kind = true ∧
          lvl + blobLevel (us.take i) ≤ 1)) →
      c_blob_loop us acc lvl = (acc ++ us.take j, us.drop (j + 1)) := by
  induction us with
  | nil => intro acc lvl j hj; exact absurd hj (by simp)
  | cons t rest ih =>
    intro acc lvl j hj hclose hbrk hfirst
    cases j with
    | zero =>
      have hcl : isCloseKind t.kind = true := by simpa using hclose
      have hol : isOpenKind t.kind = false := isClose_not_isOpen t.kind hcl
      have hlvl : lvl - 1 ≤ 0 := by
        simp only [List.take_zero, blobLevel, List.map_nil,
          List.sum_nil] at hbrk
        omega
      simp [c_blob_loop, hol, hcl, hlvl]
    | succ k =>
      have hj2 : k < rest.length := by simpa using hj
      have hclose2 : isCloseKind (rest.get ⟨k, hj2⟩).kind = true := by
        simpa using hclose
      by_cases hop : isOpenKind t.kind = true
      · have hd : blobDelta t.kind = 1 := by unfold blobDelta; simp [hop]
        have hstep : c_blob_loop (t :: rest) acc lvl =
            c_blob_loop rest (acc ++ [t]) (lvl + 1) := by
          simp [c_blob_loop, hop]
        rw [hstep, ih (acc ++ [t]) (lvl + 1) k hj2 hclose2 ?_ ?_]
        · simp [List.take_succ_cons, List.drop_succ_cons]
        · simp only [List.take_succ_cons, blobLevel, List.map_cons,
            List.sum_cons, hd] at hbrk
          unfold blobLevel
          omega
        · intro i hi hik
          have hmain := hfirst (i + 1) (by simpa using Nat.succ_lt_succ hi)
            (Nat.succ_lt_succ hik)
          simp only [List.get_cons_succ, List.take_succ_cons, blobLevel,
            List.map_cons, List.sum_cons, hd] at hmain
          intro hcontra
          refine hmain ⟨hcontra.1, ?_⟩
          have h2 := hcontra.2
          unfold blobLevel at h2
          omega
      · by_cases hcl : isCloseKind t.kind = true
        · have h0 := hfirst 0 (by simp) (Nat.succ_pos k)
          have hd : blobDelta t.kind = -1 := by
            unfold blobDelta; simp [hop, hcl]
          have hlvl : ¬(lvl - 1 ≤ 0) := by
            intro hc
            refine h0 ⟨by simpa using hcl, ?_⟩
            simp only [List.take_zero, blobLevel, List.map_nil, List.sum_nil]
            omega
          have hstep : c_blob_loop (t :: rest) acc lvl =
              c_blob_loop rest (acc ++ [t]) (lvl - 1) := by
            simp [c_blob_loop, hop, hcl, hlvl]
          rw [hstep, ih (acc ++ [t]) (lvl - 1) k hj2 hclose2 ?_ ?_]
          · simp [List.take_succ_cons, List.drop_succ_cons]
          · simp only [List.take_succ_cons, blobLevel, List.map_cons,
              List.sum_cons, hd] at hbrk
            unfold blobLevel
            omega
          · intro i hi hik
            have hmain := hfirst (i + 1) (by simpa using Nat.succ_lt_succ hi)
              (Nat.succ_lt_succ hik)
            simp only [List.get_cons_succ, List.take_succ_cons, blobLevel,
              List.map_cons, List.sum_cons, hd] at hmain
            intro hcontra
            refine hmain ⟨hcontra.1, ?_⟩
            have h2 := hcontra.2
            unfold blobLevel at h2
            omega
        · have hd : blobDelta t.kind = 0 := by
            unfold blobDelta; simp [hop, hcl]
          have hstep : c_blob_loop (t :: rest) acc lvl =
              c_blob_loop rest (acc ++ [t]) lvl := by
            simp [c_blob_loop, hop, hcl]
          rw [hstep, ih (acc ++ [t]) lvl k hj2 hclose2 ?_ ?_]
          · simp [List.take_succ_cons, List.drop_succ_cons]
          · simp only [List.take_succ_cons, blobLevel, List.map_cons,
              List.sum_cons, hd] at hbrk
            unfold blobLevel
            omega
          · intro i hi hik
            have hmain := hfirst (i + 1) (by simpa using Nat.succ_lt_succ hi)
              (Nat.succ_lt_succ hik)
            simp only [List.get_cons_succ, List.take_succ_cons, blobLevel,
              List.map_cons, List.sum_cons, hd] at hmain
            intro hcontra
            refine hmain ⟨hcontra.1, ?_⟩
            have h2 := hcontra.2
            unfold blobLevel at h2
            omega

/-- Claim C6: when the buffer starts with `\x7b` and position `j` holds the
first closing token at which the joint counter (over all three bracket
families, raw tokens included in the scan) comes back to zero, the blob scan
captures exactly the tokens before `j` (the opening brace included, the
closing token excluded) and leaves the cursor just past the closing
token. -/
theorem c6_blob_capture (ts : List Token) (j : Nat) (hj : j < ts.length)
    (_hhead : ts.head?.map Token.kind = some TokenKind.LBRACE)
    (hclose : isCloseKind (ts.get ⟨j, hj⟩).kind = true)
    (hbal : blobLevel (ts.take j) = 1)
    (hfirst : ∀ i (hi : i < ts.length), i < j →
      ¬(isCloseKind (ts.get ⟨i, hi⟩).kind = true ∧
        blobLevel (ts.take i) ≤ 1)) :
    c_blob ts = (ts.take j, ts.drop (j + 1)) := by
  unfold c_blob
  rw [c_blob_loop_capture ts [] 0 j hj hclose (by omega) ?_]
  · simp
  · intro i hi hik
    have := hfirst i hi hik
    intro hcontra
    refine this ⟨hcontra.1, ?_⟩
    have h2 := hcontra.2
    omega

/-- Claim C5: every grammar rule that reports a no-match hands the cursor
back exactly where it was when the rule was invoked, for all token buffers
(the wrapped rules via the `contextual` combinator, the list helpers via
their explicit rewinds). -/
theorem c5_noMatch_restores_cursor :
    (∀ ts ts1, definition ts = PRes.noMatch ts1 → ts1 = ts) ∧
    (∀ ts ts1, inst_def ts = PRes.noMatch ts1 → ts1 = ts) ∧
    (∀ ts ts1, inst_header ts = PRes.noMatch ts1 → ts1 = ts) ∧
    (∀ ts ts1, input ts = PRes.noMatch ts1 → ts1 = ts) ∧
    (∀ ts ts1, output ts = PRes.noMatch ts1 → ts1 = ts) ∧
    (∀ ts ts1, inputs ts = PRes.noMatch ts1 → ts1 = ts) ∧
    (∀ ts ts1, outputs ts = PRes.noMatch ts1 → ts1 = ts) ∧
    (∀ ts ts1, op ts = PRes.noMatch ts1 → ts1 = ts) ∧
    (∀ ts ts1, ops ts = PRes.noMatch ts1 → ts1 = ts) ∧
    (∀ ts ts1, super_def ts = PRes.noMatch ts1 → ts1 = ts) ∧
    (∀ ts ts1, uop ts = PRes.noMatch ts1 → ts1 = ts) ∧
    (∀ ts ts1, uops ts = PRes.noMatch ts1 → ts1 = ts) ∧
    (∀ ts ts1, macro_def ts = PRes.noMatch ts1 → ts1 = ts) ∧
    (∀ ts ts1, members ts = PRes.noMatch ts1 → ts1 = ts) ∧
    (∀ ts ts1, family_def ts = PRes.noMatch ts1 → ts1 = ts) ∧
    (∀ ts ts1, block ts = PRes.noMatch ts1 → ts1 = ts) := by
  refine ⟨?_, ?_, ?_, ?_, ?_, ?_, ?_, ?_, ?_, ?_, ?_, ?_, ?_, ?_, ?_, ?_⟩
  · exact fun ts ts1 h => contextual_noMatch definition_body ts ts1 h
  · exact fun ts ts1 h => contextual_noMatch inst_def_body ts ts1 h
  · exact fun ts ts1 h => contextual_noMatch inst_header_body ts ts1 h
  · exact fun ts ts1 h => contextual_noMatch input_body ts ts1 h
  · exact fun ts ts1 h => contextual_noMatch output_body ts ts1 h
  · exact fun ts ts1 h => inputs_rec_noMatch (ts.length + 1) ts ts1 h
  · exact fun ts ts1 h => outputs_rec_noMatch (ts.length + 1) ts ts1 h
  · exact fun ts ts1 h => contextual_noMatch op_body ts ts1 h
  · exact fun ts ts1 h => ops_noMatch ts ts1 h
  · exact fun ts ts1 h => contextual_noMatch super_def_body ts ts1 h
  · exact fun ts ts1 h => contextual_noMatch uop_body ts ts1 h
  · exact fun ts ts1 h => uops_noMatch ts ts1 h
  · exact fun ts ts1 h => contextual_noMatch macro_def_body ts ts1 h
  · exact fun ts ts1 h => members_noMatch ts ts1 h
  · exact fun ts ts1 h => contextual_noMatch family_def_body ts ts1 h
  · exact fun ts ts1 h => contextual_noMatch block_body ts ts1 h

/-- Claim C9: once the member list's leading identifier has matched, the
rule succeeds only when the token just after the list is a closing brace —
anything else there is the fatal error `Expected comma or right paren` —
while a trailing comma followed by a non-identifier merely ends the list
quietly (the closing brace stays unconsumed). -/
theorem c9_member_list :
    (∀ ts t ts1, expect TokenKind.IDENTIFIER ts = (some t, ts1) →
      (∀ u, peek (members_rec (ts1.length + 1) [t.text] ts1).2 = some u →
        u.kind ≠ TokenKind.RBRACE) →
      members ts = PRes.err "Expected comma or right paren") ∧
    (∀ nm ts, members (idT nm :: commaT :: rbT :: ts) =
      PRes.ok [nm] (rbT :: ts)) := by
  constructor
  · intro ts t ts1 h1 h2
    unfold members
    rw [h1]
    show (match members_rec (ts1.length + 1) [t.text] ts1 with
      | (ms, ts2) =>
        match peek ts2 with
        | some p =>
          if p.kind = TokenKind.RBRACE then PRes.ok ms ts2
          else PRes.err "Expected comma or right paren"
        | none => PRes.err "Expected comma or right paren") =
      PRes.err "Expected comma or right paren"
    cases hm : members_rec (ts1.length + 1) [t.text] ts1 with
    | mk ms ts2 =>
      have hpk : ∀ u, peek ts2 = some u → u.kind ≠ TokenKind.RBRACE := by
        intro u hu
        refine h2 u ?_
        rw [hm]
        exact hu
      show (match peek ts2 with
        | some p =>
          if p.kind = TokenKind.RBRACE then PRes.ok ms ts2
          else PRes.err "Expected comma or right paren"
        | none => PRes.err "Expected comma or right paren") =
        PRes.err "Expected comma or right paren"
      cases hp : peek ts2 with
      | none => rfl
      | some u => simp [hpk u hp]
  · intro nm ts
    rfl

/-- Claim C10: `block` succeeds on every buffer (the blob scan always
terminates with the tokens collected so far, possibly none), so after a
successful header `inst_def` can never raise `Expected block` — that error
branch is unreachable. -/
theorem c10_expected_block_unreachable :
    (∀ ts, ∃ b ts2, block ts = PRes.ok b ts2) ∧
    (∀ ts hdr ts1, inst_header ts = PRes.ok hdr ts1 →
      inst_def ts ≠ PRes.err "Expected block") := by
  have hblock : ∀ ts, block ts = PRes.ok ⟨(c_blob ts).1⟩ (c_blob ts).2 :=
    fun ts => rfl
  constructor
  · intro ts
    exact ⟨⟨(c_blob ts).1⟩, (c_blob ts).2, hblock ts⟩
  · intro ts hdr ts1 h hcontra
    unfold inst_def contextual inst_def_body at hcontra
    rw [h] at hcontra
    simp [hblock] at hcontra

/-- Claim C1, witness: on the all-opening buffer `\x7b a (` (no closing
token at all) the amended claim's hypothesis holds and the scan captures the
whole buffer. -/
theorem c1_witness :
    c_blob [lbT, idT "a", lpT] = ([lbT, idT "a", lpT], []) :=
  c1_unterminated_block_captures_rest [lbT, idT "a", lpT] (by decide)

/-- Claim C2, witness: instantiating the amended claim at `super(S) = +`,
whose next token after the `=` is not an identifier. -/
theorem c2_witness :
    super_def (superPrefixToks "S" ++ [plusT]) =
      PRes.noMatch (superPrefixToks "S" ++ [plusT]) :=
  c2_empty_ops_noMatch "S" [plusT] (by
    intro t ht
    rw [show peek [plusT] = some plusT from rfl] at ht
    injection ht with h2
    subst h2
    decide)

/-- Claim C3, witness: instantiating the amended claim on the buffer `+ ;`
(one loop step, the `+` followed by no valid element). -/
theorem c3_witness :
    uops_rec 1 [] [plusT, semiT] =
        Except.error "Expected op name or cache effect" ∧
      ops_rec 1 [] [plusT, semiT] = ops_rec 0 [] [semiT] :=
  ⟨c3_dangling_plus.1 0 [] [plusT, semiT] [semiT] [semiT] plusT rfl rfl,
    c3_dangling_plus.2 0 [] [plusT, semiT] [semiT] [semiT] plusT rfl rfl⟩

/-- Claim C4, witness: instantiating the amended claim at
`inst(X, (a -- b)) ;` (the token after the header is `;`, not a brace). -/
theorem c4_witness :
    inst_header (instHeaderToks "X" "a" "b" ++ [semiT]) =
      PRes.noMatch (instHeaderToks "X" "a" "b" ++ [semiT]) :=
  c4_missing_block_noMatch "X" "a" "b" [semiT] (by
    intro t ht
    rw [show peek [semiT] = some semiT from rfl] at ht
    injection ht with h2
    subst h2
    decide)

/-- Claim C5, witness: instantiating the idempotence property for
`definition` on the buffer holding the single identifier `q`. -/
theorem c5_witness :
    definition [idT "q"] = PRes.noMatch [idT "q"] ∧
      ([idT "q"] : List Token) = [idT "q"] :=
  ⟨rfl, c5_noMatch_restores_cursor.1 [idT "q"] [idT "q"] rfl⟩

/-- Claim C6, witness: on `\x7b a ( <comment> ) \x7d ;` the first counter
zeroing close sits at index 5; the capture keeps indices 0–4 (comment
included) and the cursor lands on the `;`. -/
theorem c6_witness :
    c_blob c6_input = (c6_input.take 5, c6_input.drop 6) :=
  c6_blob_capture c6_input 5 (by decide) (by decide) (by decide) (by decide)
    (by decide)

/-- Claim C9, witness: on the member-list interior `a , b + \x7d` the token
after the list is `+`, so `members` raises the fatal error. -/
theorem c9_witness :
    members c9_err_input = PRes.err "Expected comma or right paren" :=
  c9_member_list.1 c9_err_input (idT "a") [commaT, idT "b", plusT, rbT] rfl
    (by
      intro u hu
      rw [show peek (members_rec ([commaT, idT "b", plusT, rbT].length + 1)
        [(idT "a").text] [commaT, idT "b", plusT, rbT]).2 = some plusT
        from rfl] at hu
      injection hu with h2
      subst h2
      decide)

/-- Claim C10, witness: on `inst(X) \x7b \x7d` the header succeeds, and
`inst_def` does not raise `Expected block`. -/
theorem c10_witness :
    inst_header c10_input = PRes.ok ⟨"inst", "X", [], []⟩ [lbT, rbT] ∧
      inst_def c10_input ≠ PRes.err "Expected block" :=
  ⟨rfl, c10_expected_block_unreachable.2 c10_input ⟨"inst", "X", [], []⟩
    [lbT, rbT] rfl⟩

end CasesGenerator
